import Mathlib

/-!
Shallow embedding of the printf reimplementation (printf.c, printf_format.c,
printf_basic_output.c, printf_arguments.c, printf_definitions.h).

C strings are embedded as List Char holding the bytes before the NUL
terminator; reading the terminator of an exhausted string is modelled by
headD with the NUL character.  C int values are embedded as Int (or as Nat
where the source value is provably non-negative), size_t and unsigned int
as Nat, with explicit reductions modulo 2 ^ 32 / 2 ^ 64 at the places where
the source converts a signed int to an unsigned type.
-/

namespace PrintfSpec

/-- Error and warning codes, from format_error in printf_definitions.h. -/
inductive format_error where
  | FORMAT_okay
  | FORMAT_ERROR_no_positional_width
  | FORMAT_ERROR_no_positional_precision
  | FORMAT_ERROR_unknown_type
  | FORMAT_ERROR_incompatible_length_type
  | FORMAT_WARNING_flag_does_nothing
  | FORMAT_WARNING_repeat_flag
  | FORMAT_WARNING_width_does_nothing
  | FORMAT_WARNING_precision_does_nothing
  | FORMAT_WARNING_does_not_print
deriving DecidableEq, Repr

/-- Conversion type letters, from format_string_types in printf_definitions.h. -/
inductive format_string_types where
  | TYPE_d | TYPE_i | TYPE_u | TYPE_o | TYPE_x | TYPE_X | TYPE_f | TYPE_F
  | TYPE_e | TYPE_E | TYPE_g | TYPE_G | TYPE_a | TYPE_A | TYPE_c | TYPE_s
  | TYPE_p | TYPE_n | TYPE_ERROR
deriving DecidableEq, Repr

/-- Length modifiers, from format_string_lengths in printf_definitions.h. -/
inductive format_string_lengths where
  | LENGTH_none | LENGTH_hh | LENGTH_h | LENGTH_l | LENGTH_ll | LENGTH_j
  | LENGTH_z | LENGTH_t | LENGTH_L
deriving DecidableEq, Repr

open format_error format_string_types format_string_lengths

/-- Parsed directive descriptor, from format_specifier in
printf_definitions.h.  The C code leaves length and type uninitialised
until the length/type stages run; the embedding initialises them to the
values the final else branches assign (LENGTH_none, TYPE_ERROR). -/
structure format_specifier where
  input_length : Nat
  left_justify : Bool
  always_sign : Bool
  empty_sign : Bool
  alternate_form : Bool
  zero_padded : Bool
  preceding_width : Nat
  width : Nat
  preceding_precision : Nat
  precision : Int
  length : format_string_lengths
  type : format_string_types
  position : Nat
deriving DecidableEq, Repr

/-- Reads the NUL terminator when the embedded string is exhausted,
matching a C read of the final byte of the string. -/
def peekChar (l : List Char) : Char := l.headD '\x00'

/-- Accumulator loop of format_string_atoi in printf_format.c: returns the
value read and the number of characters consumed. -/
def format_string_atoi_aux (current read : Nat) : List Char → Nat × Nat
  | [] => (current, read)
  | c :: rest =>
    if '0' ≤ c ∧ c ≤ '9' then
      format_string_atoi_aux (current * 10 + (c.toNat - '0'.toNat)) (read + 1) rest
    else
      (current, read)

/-- format_string_atoi from printf_format.c. -/
def format_string_atoi (l : List Char) : Nat × Nat := format_string_atoi_aux 0 0 l

/-- format_error_is_error from printf_format.c. -/
def format_error_is_error (error : format_error) : Bool :=
  error == FORMAT_ERROR_no_positional_width ||
  error == FORMAT_ERROR_no_positional_precision ||
  error == FORMAT_ERROR_unknown_type ||
  error == FORMAT_ERROR_incompatible_length_type

/-- format_error_is_warning from printf_format.c. -/
def format_error_is_warning (error : format_error) : Bool :=
  error == FORMAT_WARNING_flag_does_nothing ||
  error == FORMAT_WARNING_repeat_flag ||
  error == FORMAT_WARNING_width_does_nothing ||
  error == FORMAT_WARNING_precision_does_nothing ||
  error == FORMAT_WARNING_does_not_print

/-- The if-chain of read_format_string_type from printf_format.c as a
letter table: none embeds the final else branch marking an unknown type. -/
def read_format_string_type_letter (c : Char) : Option format_string_types :=
  if c = 'd' then some TYPE_d
  else if c = 'i' then some TYPE_i
  else if c = 'u' then some TYPE_u
  else if c = 'o' then some TYPE_o
  else if c = 'x' then some TYPE_x
  else if c = 'X' then some TYPE_X
  else if c = 'f' then some TYPE_f
  else if c = 'F' then some TYPE_F
  else if c = 'e' then some TYPE_e
  else if c = 'E' then some TYPE_E
  else if c = 'g' then some TYPE_g
  else if c = 'G' then some TYPE_G
  else if c = 'a' then some TYPE_a
  else if c = 'A' then some TYPE_A
  else if c = 'c' then some TYPE_c
  else if c = 's' then some TYPE_s
  else if c = 'p' then some TYPE_p
  else if c = 'n' then some TYPE_n
  else none

/-- read_format_string_type from printf_format.c: on a known letter the
type field is set and the shared trailing increment of input_length runs;
an unknown letter records TYPE_ERROR and the unknown-type error. -/
def read_format_string_type (l : List Char) (fs : format_specifier) :
    format_specifier × format_error :=
  match read_format_string_type_letter (peekChar l) with
  | some t => ({fs with type := t, input_length := fs.input_length + 1}, FORMAT_okay)
  | none => ({fs with type := TYPE_ERROR}, FORMAT_ERROR_unknown_type)

/-- The if-chain of read_format_string_length from printf_format.c as a
selector for the modifier and the number of characters it consumes
(longest match first, mirroring the strncmp tests for hh and ll before h
and l; take 2 embeds the two-character strncmp). -/
def read_format_string_length_modifier (l : List Char) : format_string_lengths × Nat :=
  if l.take 2 = ['h', 'h'] then (LENGTH_hh, 2)
  else if peekChar l = 'h' then (LENGTH_h, 1)
  else if l.take 2 = ['l', 'l'] then (LENGTH_ll, 2)
  else if peekChar l = 'l' then (LENGTH_l, 1)
  else if peekChar l = 'j' then (LENGTH_j, 1)
  else if peekChar l = 'z' then (LENGTH_z, 1)
  else if peekChar l = 't' then (LENGTH_t, 1)
  else if peekChar l = 'L' then (LENGTH_L, 1)
  else (LENGTH_none, 0)

/-- read_format_string_length from printf_format.c: records the modifier,
advances past it, and falls through to the type stage. -/
def read_format_string_length (l : List Char) (fs : format_specifier) :
    format_specifier × format_error :=
  let m := read_format_string_length_modifier l
  read_format_string_type (l.drop m.2)
    {fs with length := m.1, input_length := fs.input_length + m.2}

/-- read_format_string_precision from printf_format.c. -/
def read_format_string_precision (l : List Char) (fs : format_specifier) :
    format_specifier × format_error :=
  if peekChar l = '.' then
    let rest := l.drop 1
    let fs := {fs with input_length := fs.input_length + 1}
    if peekChar rest = '*' then
      let rest2 := rest.drop 1
      let fs := {fs with input_length := fs.input_length + 1}
      if fs.position ≠ 0 then
        let pr := format_string_atoi rest2
        let fs := {fs with preceding_precision := pr.1, input_length := fs.input_length + pr.2}
        let rest3 := rest2.drop pr.2
        if pr.1 = 0 ∨ peekChar rest3 ≠ '$' then
          (fs, FORMAT_ERROR_no_positional_precision)
        else
          read_format_string_length (rest3.drop 1) {fs with input_length := fs.input_length + 1}
      else
        read_format_string_length rest2 {fs with preceding_precision := 1}
    else
      let pr := format_string_atoi rest
      read_format_string_length (rest.drop pr.2)
        {fs with precision := (pr.1 : Int), input_length := fs.input_length + pr.2}
  else
    read_format_string_length l fs

/-- read_format_string_width from printf_format.c. -/
def read_format_string_width (l : List Char) (fs : format_specifier) :
    format_specifier × format_error :=
  if peekChar l = '*' then
    let rest := l.drop 1
    let fs := {fs with input_length := fs.input_length + 1}
    if fs.position ≠ 0 then
      let pr := format_string_atoi rest
      let fs := {fs with preceding_width := pr.1, input_length := fs.input_length + pr.2}
      let rest2 := rest.drop pr.2
      if pr.1 = 0 ∨ peekChar rest2 ≠ '$' then
        (fs, FORMAT_ERROR_no_positional_width)
      else
        read_format_string_precision (rest2.drop 1) {fs with input_length := fs.input_length + 1}
    else
      read_format_string_precision rest {fs with preceding_width := 1}
  else
    let pr := format_string_atoi l
    read_format_string_precision (l.drop pr.2)
      {fs with width := pr.1, input_length := fs.input_length + pr.2}

/-- read_format_string_flags from printf_format.c: the while loop carries
the local warning accumulator; other errors from the rest of the chain take
priority over the accumulated warning. -/
def read_format_string_flags : List Char → format_specifier → format_error →
    format_specifier × format_error
  | '-' :: rest, fs, error =>
    read_format_string_flags rest
      {fs with left_justify := true, input_length := fs.input_length + 1}
      (if fs.left_justify then FORMAT_WARNING_repeat_flag else error)
  | '+' :: rest, fs, error =>
    read_format_string_flags rest
      {fs with always_sign := true, input_length := fs.input_length + 1}
      (if fs.always_sign then FORMAT_WARNING_repeat_flag else error)
  | ' ' :: rest, fs, error =>
    read_format_string_flags rest
      {fs with empty_sign := true, input_length := fs.input_length + 1}
      (if fs.empty_sign then FORMAT_WARNING_repeat_flag else error)
  | '#' :: rest, fs, error =>
    read_format_string_flags rest
      {fs with alternate_form := true, input_length := fs.input_length + 1}
      (if fs.alternate_form then FORMAT_WARNING_repeat_flag else error)
  | '0' :: rest, fs, error =>
    read_format_string_flags rest
      {fs with zero_padded := true, input_length := fs.input_length + 1}
      (if fs.zero_padded then FORMAT_WARNING_repeat_flag else error)
  | l, fs, error =>
    let r := read_format_string_width l fs
    (r.1, if r.2 = FORMAT_okay then error else r.2)

/-- read_format_string_position from printf_format.c: a leading 1..9 run is
a position when followed by a dollar sign, otherwise it is a width. -/
def read_format_string_position (l : List Char) (fs : format_specifier) :
    format_specifier × format_error :=
  if '0' < peekChar l ∧ peekChar l ≤ '9' then
    let pr := format_string_atoi l
    let fs := {fs with input_length := fs.input_length + pr.2}
    let rest := l.drop pr.2
    if peekChar rest = '$' then
      read_format_string_flags (rest.drop 1)
        {fs with input_length := fs.input_length + 1, position := pr.1} FORMAT_okay
    else
      read_format_string_precision rest {fs with width := pr.1}
  else
    read_format_string_flags l fs FORMAT_okay

/-- format_string_check_length_type from printf_format.c. -/
def format_string_check_length_type (fs : format_specifier) : format_error :=
  match fs.type with
  | TYPE_d | TYPE_i =>
    if fs.length = LENGTH_L then FORMAT_ERROR_incompatible_length_type else FORMAT_okay
  | TYPE_u | TYPE_o | TYPE_x | TYPE_X =>
    if fs.length = LENGTH_L then FORMAT_ERROR_incompatible_length_type else FORMAT_okay
  | TYPE_f | TYPE_F | TYPE_e | TYPE_E | TYPE_g | TYPE_G | TYPE_a | TYPE_A =>
    if fs.length = LENGTH_h ∨ fs.length = LENGTH_hh ∨ fs.length = LENGTH_l ∨
       fs.length = LENGTH_ll ∨ fs.length = LENGTH_j ∨ fs.length = LENGTH_z ∨
       fs.length = LENGTH_t then
      FORMAT_ERROR_incompatible_length_type
    else FORMAT_okay
  | TYPE_c =>
    if fs.length = LENGTH_h ∨ fs.length = LENGTH_hh ∨ fs.length = LENGTH_ll ∨
       fs.length = LENGTH_j ∨ fs.length = LENGTH_z ∨ fs.length = LENGTH_t ∨
       fs.length = LENGTH_L then
      FORMAT_ERROR_incompatible_length_type
    else FORMAT_okay
  | TYPE_s =>
    if fs.length = LENGTH_h ∨ fs.length = LENGTH_hh ∨ fs.length = LENGTH_ll ∨
       fs.length = LENGTH_j ∨ fs.length = LENGTH_z ∨ fs.length = LENGTH_t ∨
       fs.length = LENGTH_L then
      FORMAT_ERROR_incompatible_length_type
    else FORMAT_okay
  | TYPE_p =>
    if fs.length ≠ LENGTH_none then FORMAT_ERROR_incompatible_length_type else FORMAT_okay
  | TYPE_n =>
    if fs.length = LENGTH_L then FORMAT_ERROR_incompatible_length_type else FORMAT_okay
  | TYPE_ERROR => FORMAT_ERROR_unknown_type

/-- Final block of format_string_check_unused_values in printf_format.c:
when a precision is specified, the zero-pad flag is ignored and cleared. -/
def format_string_check_unused_values_final (fs : format_specifier)
    (result : format_error) : format_specifier × format_error :=
  if fs.precision ≠ -1 ∧ fs.zero_padded then
    ({fs with zero_padded := false}, FORMAT_WARNING_flag_does_nothing)
  else (fs, result)

/-- Body of format_string_check_unused_values in printf_format.c up to its
final block: clears the flag, width and precision fields that the chosen
conversion type renders meaningless, recording a warning for each clear.
The sequential field mutations of the source are embedded as a chain of
descriptor rebindings; the nested if blocks of the source are flattened to
conjunctions, which leaves both the final descriptor and the final warning
unchanged. -/
def format_string_check_unused_values_fixups (fs : format_specifier) :
    format_specifier × format_error :=
  let r0 : format_specifier × format_error := (fs, FORMAT_okay)
  let r1 := if r0.1.always_sign ∧ r0.1.empty_sign then
      ({r0.1 with empty_sign := false}, FORMAT_WARNING_flag_does_nothing) else r0
  let r2 := if (r1.1.type = TYPE_d ∨ r1.1.type = TYPE_i ∨ r1.1.type = TYPE_u) ∧
      r1.1.alternate_form then
      ({r1.1 with alternate_form := false}, FORMAT_WARNING_flag_does_nothing) else r1
  let r3 := if (r2.1.type = TYPE_x ∨ r2.1.type = TYPE_X) ∧ r2.1.always_sign then
      ({r2.1 with always_sign := false}, FORMAT_WARNING_flag_does_nothing) else r2
  let r4 := if (r3.1.type = TYPE_x ∨ r3.1.type = TYPE_X) ∧ r3.1.empty_sign then
      ({r3.1 with empty_sign := false}, FORMAT_WARNING_flag_does_nothing) else r3
  let r5 := if (r4.1.type = TYPE_c ∨ r4.1.type = TYPE_s ∨ r4.1.type = TYPE_p) ∧
      r4.1.always_sign then
      ({r4.1 with always_sign := false}, FORMAT_WARNING_flag_does_nothing) else r4
  let r6 := if (r5.1.type = TYPE_c ∨ r5.1.type = TYPE_s ∨ r5.1.type = TYPE_p) ∧
      r5.1.empty_sign then
      ({r5.1 with empty_sign := false}, FORMAT_WARNING_flag_does_nothing) else r5
  let r7 := if (r6.1.type = TYPE_c ∨ r6.1.type = TYPE_s ∨ r6.1.type = TYPE_p) ∧
      r6.1.alternate_form then
      ({r6.1 with alternate_form := false}, FORMAT_WARNING_flag_does_nothing) else r6
  let r8 := if (r7.1.type = TYPE_c ∨ r7.1.type = TYPE_s ∨ r7.1.type = TYPE_p) ∧
      r7.1.zero_padded then
      ({r7.1 with zero_padded := false}, FORMAT_WARNING_flag_does_nothing) else r7
  let r9 := if r8.1.type = TYPE_n ∧ r8.1.always_sign then
      ({r8.1 with always_sign := false}, FORMAT_WARNING_does_not_print) else r8
  let r10 := if r9.1.type = TYPE_n ∧ r9.1.empty_sign then
      ({r9.1 with empty_sign := false}, FORMAT_WARNING_does_not_print) else r9
  let r11 := if r10.1.type = TYPE_n ∧ r10.1.alternate_form then
      ({r10.1 with alternate_form := false}, FORMAT_WARNING_does_not_print) else r10
  let r12 := if r11.1.type = TYPE_n ∧ r11.1.zero_padded then
      ({r11.1 with zero_padded := false}, FORMAT_WARNING_does_not_print) else r11
  let r13 := if r12.1.type = TYPE_n ∧ r12.1.left_justify then
      ({r12.1 with left_justify := false}, FORMAT_WARNING_does_not_print) else r12
  let r14 := if r13.1.type = TYPE_n ∧ r13.1.width ≠ 0 then
      ({r13.1 with width := 0}, FORMAT_WARNING_does_not_print) else r13
  let r15 := if r14.1.type = TYPE_n ∧ r14.1.precision ≠ -1 then
      ({r14.1 with precision := -1}, FORMAT_WARNING_does_not_print) else r14
  let r16 := if (r15.1.type = TYPE_c ∨ r15.1.type = TYPE_p) ∧ r15.1.precision ≠ -1 then
      ({r15.1 with precision := -1}, FORMAT_WARNING_precision_does_nothing) else r15
  let r17 := if r16.1.zero_padded ∧ r16.1.left_justify then
      ({r16.1 with zero_padded := false}, FORMAT_WARNING_flag_does_nothing) else r16
  r17

/-- format_string_check_unused_values from printf_format.c: the flag,
width and precision fixups followed by the final block clearing zero-pad
under an explicit precision. -/
def format_string_check_unused_values (fs : format_specifier) :
    format_specifier × format_error :=
  format_string_check_unused_values_final
    (format_string_check_unused_values_fixups fs).1
    (format_string_check_unused_values_fixups fs).2

/-- Initial field values set at the top of read_format_string in
printf_format.c. -/
def format_specifier_init : format_specifier where
  input_length := 0
  left_justify := false
  always_sign := false
  empty_sign := false
  alternate_form := false
  zero_padded := false
  preceding_width := 0
  width := 0
  preceding_precision := 0
  precision := -1
  length := LENGTH_none
  type := TYPE_ERROR
  position := 0

/-- read_format_string from printf_format.c: parse the directive body, then
run the length and type validity check; an error from the check takes
priority over a warning from parsing. -/
def read_format_string (l : List Char) : format_specifier × format_error :=
  let r := read_format_string_position l format_specifier_init
  if format_error_is_error r.2 then r
  else
    let error2 := format_string_check_length_type r.1
    if format_error_is_error error2 then (r.1, error2)
    else r

/-!
Emitters from printf_basic_output.c.  An emitter submits characters one at
a time through printf_output; the pure embedding returns the submitted
character sequence (the behaviour on the always-succeeding sink paths).
-/

/-- Digit character table, base_conversion_small in printf_basic_output.c. -/
def base_conversion_small : List Char := "0123456789abcdef".toList

/-- Digit character table, base_conversion_capital in printf_basic_output.c. -/
def base_conversion_capital : List Char := "0123456789ABCDEF".toList

/-- Literal printed for a null pointer, from printf_basic_output.c. -/
def null_pointer_string : List Char := "(nil)".toList

/-- Literal printed for a null string argument, from printf_basic_output.c. -/
def null_string_string : List Char := "(null)".toList

/-- write_integer_backwards from printf_basic_output.c: emit the digits of
value in the given base, least significant first, always at least one
digit.  The base is 8, 10 or 16 at every call site; the first branch is a
totality guard for other bases, where the division loop of the source
would not progress, and is never reached from the call sites. -/
def write_integer_backwards (value : Nat) (fs : format_specifier) (base : Nat) :
    List Char :=
  let char_values :=
    if fs.type = TYPE_X then base_conversion_capital else base_conversion_small
  if hb : base ≤ 1 then
    [char_values.getD (value % base) '0']
  else if h : value / base = 0 then
    [char_values.getD (value % base) '0']
  else
    char_values.getD (value % base) '0' :: write_integer_backwards (value / base) fs base
termination_by value
decreasing_by
  have hv : value ≠ 0 := by
    intro hz
    exact h (by simp [hz])
  exact Nat.div_lt_self (Nat.pos_of_ne_zero hv) (by omega)

/-- pad_output from printf_basic_output.c: the pad character, length times. -/
def pad_output (length : Nat) (pad_character : Char) : List Char :=
  List.replicate length pad_character

/-- write_backwards_buffer from printf_basic_output.c: emits
buffer[length - 1 - i] for i = 0 .. length - 1, i.e. the reverse. -/
def write_backwards_buffer (buffer : List Char) : List Char := buffer.reverse

/-- write_forwards_buffer from printf_basic_output.c: emits the first
length characters in order; the embedding receives exactly those characters. -/
def write_forwards_buffer (buffer : List Char) : List Char := buffer

/-- Emission of an optional one-character prefix: the source passes a char
with NUL meaning absent. -/
def prefix_char_list (c : Char) : List Char := if c = '\x00' then [] else [c]

/-- write_backwards_buffer_with_padding from printf_basic_output.c. -/
def write_backwards_buffer_with_padding (buffer : List Char)
    (fs : format_specifier) (pfx pfx2 : Char)
    (padding precision_padding : Nat) : List Char :=
  if fs.zero_padded then
    prefix_char_list pfx ++ prefix_char_list pfx2 ++
      pad_output padding '0' ++ pad_output precision_padding '0' ++
      write_backwards_buffer buffer
  else if ¬fs.left_justify ∧ ¬fs.zero_padded then
    pad_output padding ' ' ++ prefix_char_list pfx ++ prefix_char_list pfx2 ++
      pad_output precision_padding '0' ++ write_backwards_buffer buffer
  else if fs.left_justify ∧ ¬fs.zero_padded then
    prefix_char_list pfx ++ prefix_char_list pfx2 ++
      pad_output precision_padding '0' ++ write_backwards_buffer buffer ++
      pad_output padding ' '
  else []

/-- strnlen_safe from printf_basic_output.c.  A C string is embedded as the
list of its bytes before the terminator, so the scan length is the minimum
of the string length and max.  The null-pointer case is reached in the
source only with max = 0, where the loop reads nothing and returns 0. -/
def strnlen_safe (str : Option (List Char)) (max : Nat) : Nat :=
  match str with
  | none => 0
  | some s => min s.length max

/-- write_string from printf_basic_output.c, the emitter for the s
conversion.  The input is an Option: none embeds a null char pointer.  The
conversion of the int precision to size_t for strnlen_safe is the reduction
modulo 2 ^ 64. -/
def write_string (input : Option (List Char)) (fs : format_specifier) : List Char :=
  let input := if fs.precision ≠ 0 ∧ input = none then some null_string_string else input
  let length :=
    if fs.precision ≠ -1 then
      strnlen_safe input ((fs.precision % (2 ^ 64 : Int)).toNat)
    else
      (input.getD []).length
  let padding_amount := if fs.width > length then fs.width - length else 0
  if ¬fs.left_justify then
    pad_output padding_amount ' ' ++ write_forwards_buffer ((input.getD []).take length)
  else
    write_forwards_buffer ((input.getD []).take length) ++ pad_output padding_amount ' '

/-- write_decimal_positive from printf_basic_output.c, the emitter for the
d, i and u conversions with a non-negative value.  The comparison of the
int precision with the unsigned length is performed after the source
conversion of precision to unsigned int, embedded as reduction modulo
2 ^ 32. -/
def write_decimal_positive (value : Nat) (fs : format_specifier) : List Char :=
  let buffer :=
    if fs.precision = 0 ∧ value = 0 then []
    else write_integer_backwards value fs 10
  let length := buffer.length
  let pl_pp : Nat × Nat :=
    if fs.precision = -1 then (length, 0)
    else
      let p := (fs.precision % (2 ^ 32 : Int)).toNat
      if p > length then (p, p - length) else (length, 0)
  let padding_amount :=
    if fs.always_sign ∨ fs.empty_sign then
      if fs.width > pl_pp.1 + 1 then fs.width - pl_pp.1 - 1 else 0
    else
      if fs.width > pl_pp.1 then fs.width - pl_pp.1 else 0
  let plus_char := if fs.always_sign then '+' else if fs.empty_sign then ' ' else '\x00'
  write_backwards_buffer_with_padding buffer fs plus_char '\x00' padding_amount pl_pp.2

/-- write_hexadecimal from printf_basic_output.c, the emitter for the x
and X conversions.  The prefix characters are the NUL sentinel unless
alternate form is set. -/
def write_hexadecimal (value : Nat) (fs : format_specifier) : List Char :=
  let zero_char := if fs.alternate_form then '0' else '\x00'
  let x_char :=
    if fs.alternate_form then (if fs.type = TYPE_X then 'X' else 'x') else '\x00'
  let buffer :=
    if fs.precision = 0 ∧ value = 0 then []
    else write_integer_backwards value fs 16
  let length := buffer.length
  let pl_pp : Nat × Nat :=
    if fs.precision = -1 then (length, 0)
    else
      let p := (fs.precision % (2 ^ 32 : Int)).toNat
      if p > length then (p, p - length) else (length, 0)
  let padding_amount :=
    if fs.alternate_form then
      if fs.width > pl_pp.1 + 2 then fs.width - pl_pp.1 - 2 else 0
    else
      if fs.width > pl_pp.1 then fs.width - pl_pp.1 else 0
  write_backwards_buffer_with_padding buffer fs zero_char x_char padding_amount pl_pp.2

/-- write_octal from printf_basic_output.c, the emitter for the o
conversion.  When precision forces leading zeros the source clears the
alternate_form flag in the descriptor before choosing the prefix and the
padding, which the local rebinding mirrors. -/
def write_octal (value : Nat) (fs : format_specifier) : List Char :=
  let buffer :=
    if fs.precision = 0 ∧ value = 0 then []
    else write_integer_backwards value fs 8
  let length := buffer.length
  let pl_pp : Nat × Nat :=
    if fs.precision = -1 then (length, 0)
    else
      let p := (fs.precision % (2 ^ 32 : Int)).toNat
      if p > length then (p, p - length) else (length, 0)
  let alternate_form := if pl_pp.1 > length then false else fs.alternate_form
  let padding_amount :=
    if alternate_form then
      if fs.width > pl_pp.1 + 1 then fs.width - pl_pp.1 - 1 else 0
    else
      if fs.width > pl_pp.1 then fs.width - pl_pp.1 else 0
  let zero_char := if alternate_form then '0' else '\x00'
  write_backwards_buffer_with_padding buffer {fs with alternate_form := alternate_form}
    zero_char '\x00' padding_amount pl_pp.2

/-- write_integer_positive from printf_basic_output.c: dispatch of the
non-negative integer conversions to their emitters.  The default branch of
the source returns false without emitting, embedded as the empty output. -/
def write_integer_positive (value : Nat) (fs : format_specifier) : List Char :=
  match fs.type with
  | TYPE_u | TYPE_d | TYPE_i => write_decimal_positive value fs
  | TYPE_o => write_octal value fs
  | TYPE_x | TYPE_X => write_hexadecimal value fs
  | _ => []

/-- Digit field of an integer conversion as the specification describes
it: with precision 0 and value 0 the field is empty, otherwise the digits
of the value in the given base zero-extended on the left up to the
precision.  This definition follows the wording of the specification and
is compared against the emitters. -/
def integer_spec_render (value : Nat) (fs : format_specifier) (base : Nat)
    (p : Nat) : List Char :=
  if p = 0 ∧ value = 0 then []
  else
    List.replicate (p - (write_integer_backwards value fs base).length) '0' ++
      (write_integer_backwards value fs base).reverse

/-- Sign prefix of a decimal conversion as the specification describes it:
a plus under the plus flag, a space under the space flag, the plus flag
taking priority, otherwise nothing.  Spec-side definition, compared with
the emitters. -/
def sign_prefix_spec (fs : format_specifier) : List Char :=
  if fs.always_sign then ['+'] else if fs.empty_sign then [' '] else []

/-- Prefix of a hexadecimal conversion as the specification describes it:
0x (0X for the capital conversion) under the alternate form flag,
otherwise nothing.  Spec-side definition, compared with the emitters. -/
def hex_prefix_spec (fs : format_specifier) : List Char :=
  if fs.alternate_form then ['0', if fs.type = TYPE_X then 'X' else 'x'] else []

/-- Prefix of an octal conversion as the specification describes it: a
leading zero under the alternate form flag, suppressed when the precision
already forces leading zeros onto the digit field.  Spec-side definition,
compared with the emitters. -/
def octal_prefix_spec (value : Nat) (fs : format_specifier) (p : Nat) : List Char :=
  if fs.alternate_form ∧
      (if p = 0 ∧ value = 0 then 0 else p) ≤
        (write_integer_backwards value fs 8).length then
    ['0']
  else []

/-- Field layout as the specification describes it: the space padding to
the width goes after the content when left justified and before it
otherwise.  Spec-side definition, compared with the emitters. -/
def justify_spec (left : Bool) (padding : Nat) (content : List Char) : List Char :=
  if left then content ++ List.replicate padding ' '
  else List.replicate padding ' ' ++ content

/-!
Sinks from printf.c.  Each sink consumes one character per printf_output
call and reports success; the runs below fold a sink over the character
sequence the engine emits.
-/

/-- State of the fixed-buffer sink of sprintf and snprintf:
string_written holds the bytes stored through the moving cursor,
character_limit and characters_written are the size_t counters of
output_specifier in printf_definitions.h. -/
structure output_specifier_sprintf where
  string_written : List Char
  character_limit : Nat
  characters_written : Nat
deriving DecidableEq, Repr

/-- printf_output_sprintf from printf.c: with a zero limit, or once
characters_written reaches character_limit - 1, the character is suppressed
but still counted; it always succeeds. -/
def printf_output_sprintf (output : output_specifier_sprintf) (c : Char) :
    output_specifier_sprintf × Bool :=
  if output.character_limit = 0 then
    ({output with characters_written := output.characters_written + 1}, true)
  else if output.characters_written ≥ output.character_limit - 1 then
    ({output with characters_written := output.characters_written + 1}, true)
  else
    ({output with string_written := output.string_written ++ [c],
                  characters_written := output.characters_written + 1}, true)

/-- Folds the fixed-buffer sink over an emitted character sequence. -/
def run_sprintf_sink (output : output_specifier_sprintf) :
    List Char → output_specifier_sprintf
  | [] => output
  | c :: cs => run_sprintf_sink (printf_output_sprintf output c).1 cs

/-- Success path of new_snprintf from printf.c: the sink starts empty with
character_limit = size; afterwards the terminator is stored only when
size is nonzero, and the return value is characters_written.  The emitted
argument is the character sequence the engine submits through printf_output
during the run. -/
def new_snprintf_result (size : Nat) (emitted : List Char) : Int × List Char :=
  let output := run_sprintf_sink ⟨[], size, 0⟩ emitted
  ((output.characters_written : Int),
   if size ≠ 0 then output.string_written ++ ['\x00'] else output.string_written)

/-- State of the growable sink of asprintf: content holds the first
characters_written bytes of the buffer, allocated_size is the capacity
field, actual_allocation is the byte count passed to the most recent
malloc or realloc call. -/
structure output_specifier_asprintf where
  content : List Char
  allocated_size : Nat
  actual_allocation : Nat
  characters_written : Nat
deriving DecidableEq, Repr

/-- BASE_ALLOCATED_STRING_SIZE from printf.c. -/
def BASE_ALLOCATED_STRING_SIZE : Nat := 16

/-- Sink state right after the initial malloc in new_asprintf and
new_vasprintf (printf.c): capacity field 16, allocation 16. -/
def new_asprintf_init : output_specifier_asprintf :=
  ⟨[], BASE_ALLOCATED_STRING_SIZE, BASE_ALLOCATED_STRING_SIZE, 0⟩

/-- printf_output_asprintf from printf.c, on the path where realloc
succeeds: when full, realloc to twice allocated_size and double the field,
then store the character. -/
def printf_output_asprintf (output : output_specifier_asprintf) (c : Char) :
    output_specifier_asprintf × Bool :=
  let output :=
    if output.characters_written ≥ output.allocated_size then
      {output with actual_allocation := output.allocated_size * 2,
                   allocated_size := output.allocated_size * 2}
    else output
  ({output with content := output.content ++ [c],
                characters_written := output.characters_written + 1}, true)

/-- Success-path epilogue of new_asprintf and new_vasprintf (printf.c
362-377 and 421-436): when the terminator does not fit, realloc to
allocated_size + 1 and then double the allocated_size field; finally store
the terminator. -/
def new_asprintf_finalize (output : output_specifier_asprintf) :
    output_specifier_asprintf :=
  if output.characters_written ≥ output.allocated_size then
    {output with actual_allocation := output.allocated_size + 1,
                 allocated_size := output.allocated_size * 2,
                 content := output.content ++ ['\x00']}
  else
    {output with content := output.content ++ ['\x00']}

/-- Sink kind tag, printf_output_type in printf_definitions.h. -/
inductive printf_output_type where
  | OUTPUT_file_descriptor | OUTPUT_stream | OUTPUT_string | OUTPUT_allocated_string
deriving DecidableEq, Repr

open printf_output_type

/-- The four per-sink writers dispatched by printf_output in printf.c. -/
inductive sink_writer where
  | sprintf_writer | fprintf_writer | dprintf_writer | asprintf_writer
deriving DecidableEq, Repr

/-- Routing of printf_output in printf.c 519-532: which static writer
handles a character for each sink kind. -/
def printf_output_dispatch (t : printf_output_type) : Option sink_writer :=
  if t = OUTPUT_string then some sink_writer.sprintf_writer
  else if t = OUTPUT_stream then some sink_writer.fprintf_writer
  else if t = OUTPUT_file_descriptor then some sink_writer.dprintf_writer
  else if t = OUTPUT_allocated_string then some sink_writer.asprintf_writer
  else none

/-- The routing-relevant fields of the output_specifier each entry point
builds: the sink kind, the stream handle (none embeds NULL) and the file
descriptor. -/
structure output_specifier_routing where
  type : printf_output_type
  stream : Option Unit
  fd : Int
deriving DecidableEq, Repr

/-- Sink construction in new_dprintf, printf.c 449-456: the type field is
set to OUTPUT_stream with a NULL stream, and fd holds the descriptor. -/
def new_dprintf_output (fd : Int) : output_specifier_routing :=
  ⟨OUTPUT_stream, none, fd⟩

/-- Sink construction in new_vdprintf, printf.c 481-488. -/
def new_vdprintf_output (fd : Int) : output_specifier_routing :=
  ⟨OUTPUT_file_descriptor, none, fd⟩

/-- State of the raw-descriptor sink: delivered records the write calls
performed, as descriptor and byte pairs. -/
structure output_specifier_fd where
  fd : Int
  delivered : List (Int × Char)
  characters_written : Nat
deriving DecidableEq, Repr

/-- printf_output_dprintf from printf.c on the path where
write(fd, and-c, 1) returns 1; a short or failed write makes the source
return false without counting. -/
def printf_output_dprintf (output : output_specifier_fd) (c : Char) :
    output_specifier_fd × Bool :=
  ({output with delivered := output.delivered ++ [(output.fd, c)],
                characters_written := output.characters_written + 1}, true)

/-- Folds the raw-descriptor sink over an emitted character sequence. -/
def run_dprintf_sink (output : output_specifier_fd) :
    List Char → output_specifier_fd
  | [] => output
  | c :: cs => run_dprintf_sink (printf_output_dprintf output c).1 cs

/-- Success path of new_vdprintf from printf.c: the return value is
characters_written after the run over the emitted sequence. -/
def new_vdprintf_result (fd : Int) (emitted : List Char) : Int :=
  ((run_dprintf_sink ⟨fd, [], 0⟩ emitted).characters_written : Int)

/-!
Positional pre-scan from printf_arguments.c.  The slot array is embedded
as a total function from Int: pia_initialise and pia_check_size_and_update
initialise every fresh slot to (LENGTH_none, TYPE_ERROR), which the total
function captures; allocation sizing and out-of-memory failure are memory
management outside the embedding.  Indices are Int because the source
computes them as int expressions of the form field - 1.
-/

/-- One slot of the positional table: the (length, type) pair recorded for
it (struct_positional_info without the owned value pointer). -/
structure positional_info where
  length : format_string_lengths
  type : format_string_types
deriving DecidableEq, Repr

/-- Fresh slot contents written by pia_initialise and
pia_check_size_and_update in printf_arguments.c. -/
def pia_init : Int → positional_info := fun _ => ⟨LENGTH_none, TYPE_ERROR⟩

/-- Pointwise update of the slot table. -/
def pia_update (pia : Int → positional_info) (i : Int) (v : positional_info) :
    Int → positional_info :=
  fun j => if j = i then v else pia j

/-- The record-an-int-slot step of parse_format_string_for_positions: if
the slot was used before it must already hold (LENGTH_none, TYPE_i), else
hard error; then the slot is set to hold an int. -/
def prescan_record_int_slot (pia : Int → positional_info) (idx : Int) :
    Option (Int → positional_info) :=
  let current_item := pia idx
  if current_item.type ≠ TYPE_ERROR ∧
      (current_item.type ≠ TYPE_i ∨ current_item.length ≠ LENGTH_none) then
    none
  else
    some (pia_update pia idx ⟨LENGTH_none, TYPE_i⟩)

/-- The record-the-printed-value step of parse_format_string_for_positions:
a re-referenced slot must carry the same (length, type), else hard error. -/
def prescan_record_value_slot (pia : Int → positional_info) (idx : Int)
    (fs : format_specifier) : Option (Int → positional_info) :=
  let current_item := pia idx
  if current_item.type ≠ TYPE_ERROR ∧
      (current_item.type ≠ fs.type ∨ current_item.length ≠ fs.length) then
    none
  else
    some (pia_update pia idx ⟨fs.length, fs.type⟩)

/-- Main loop of parse_format_string_for_positions from
printf_arguments.c 1154-1250.  After handling a directive the source does
not advance past its body; the following iterations consume the body
characters one at a time as ordinary characters, which the recursive call
on rest mirrors.  The indirect-precision record indexes the table with
preceding_width, exactly as the source line 1206 does. -/
def parse_format_string_for_positions_loop :
    List Char → (Int → positional_info) → Nat →
    Option ((Int → positional_info) × Nat)
  | [], pia, max_found => some (pia, max_found)
  | '%' :: '%' :: rest, pia, max_found =>
    parse_format_string_for_positions_loop rest pia max_found
  | '%' :: rest, pia, max_found =>
    let r := read_format_string rest
    if format_error_is_error r.2 then none
    else if r.1.position = 0 then none
    else
      let fs := r.1
      let step1 : Option ((Int → positional_info) × Nat) :=
        if fs.preceding_width ≠ 0 then
          (prescan_record_int_slot pia ((fs.preceding_width : Int) - 1)).map
            (fun pia => (pia, max fs.preceding_width max_found))
        else some (pia, max_found)
      match step1 with
      | none => none
      | some (pia, max_found) =>
        let step2 : Option ((Int → positional_info) × Nat) :=
          if fs.preceding_precision ≠ 0 then
            (prescan_record_int_slot pia ((fs.preceding_width : Int) - 1)).map
              (fun pia => (pia, max fs.preceding_precision max_found))
          else some (pia, max_found)
        match step2 with
        | none => none
        | some (pia, max_found) =>
          match prescan_record_value_slot pia ((fs.position : Int) - 1) fs with
          | none => none
          | some pia =>
            parse_format_string_for_positions_loop rest pia (max fs.position max_found)
  | _ :: rest, pia, max_found =>
    parse_format_string_for_positions_loop rest pia max_found

/-- parse_format_string_for_positions from printf_arguments.c: run the
pre-scan loop, then require every slot in [0, max_found) to have been
recorded; none embeds the false return. -/
def parse_format_string_for_positions (format : List Char) :
    Option ((Int → positional_info) × Nat) :=
  match parse_format_string_for_positions_loop format pia_init 0 with
  | none => none
  | some (pia, max_found) =>
    if (List.range max_found).all (fun i => (pia (i : Int)).type != TYPE_ERROR) then
      some (pia, max_found)
    else none

/-- Indices freed by the cleanup loop of pop_and_store_cleanup in
printf_arguments.c 940-945, which runs i from 0 while i < count - 1. -/
def pop_and_store_cleanup_freed_loop (count i : Nat) : List Nat :=
  if i < count - 1 then i :: pop_and_store_cleanup_freed_loop count (i + 1) else []
termination_by (count - 1) - i

/-- The full set of item indices pop_and_store_cleanup frees when called
with the given count. -/
def pop_and_store_cleanup_freed (count : Nat) : List Nat :=
  pop_and_store_cleanup_freed_loop count 0

/-!
Width and precision normalisation inside generic_printf, printf.c 736-764:
applied to the value fetched for an indirect width or precision.
-/

/-- Smallest value of the C int type. -/
def INT_MIN : Int := -(2 ^ 31)

/-- Largest value of the C int type. -/
def INT_MAX : Int := 2 ^ 31 - 1

/-- Width normalisation in generic_printf, printf.c 736-754: a negative
fetched width turns on left_justify and uses the negated value, with
INT_MIN clamped to INT_MAX. -/
def generic_printf_apply_width (fs : format_specifier) (width : Int) :
    format_specifier :=
  if width ≥ 0 then {fs with width := width.toNat}
  else
    let fs := {fs with left_justify := true}
    if width = INT_MIN then {fs with width := INT_MAX.toNat}
    else {fs with width := (-width).toNat}

/-- Precision normalisation in generic_printf, printf.c 756-764: a fetched
precision below zero is ignored. -/
def generic_printf_apply_precision (fs : format_specifier) (precision : Int) :
    format_specifier :=
  if precision ≥ 0 then {fs with precision := precision} else fs

/-!
General lemmas about the sinks and helper loops.
-/

theorem run_sprintf_sink_spec (cs : List Char) :
    ∀ (sw : List Char) (cl cw : Nat),
      run_sprintf_sink ⟨sw, cl, cw⟩ cs =
        ⟨sw ++ cs.take (cl - 1 - cw), cl, cw + cs.length⟩ := by
  induction cs with
  | nil => intro sw cl cw; simp [run_sprintf_sink]
  | cons c cs ih =>
    intro sw cl cw
    simp only [run_sprintf_sink, printf_output_sprintf]
    split_ifs with h1 h2
    · rw [ih]
      have e1 : cl - 1 - cw = 0 := by omega
      have e2 : cl - 1 - (cw + 1) = 0 := by omega
      simp [e1, e2]
      omega
    · rw [ih]
      have e1 : cl - 1 - cw = 0 := by omega
      have e2 : cl - 1 - (cw + 1) = 0 := by omega
      simp [e1, e2]
      omega
    · rw [ih]
      have e1 : cl - 1 - cw = (cl - 1 - (cw + 1)) + 1 := by omega
      rw [e1]
      simp [List.take_succ_cons]
      omega

theorem run_dprintf_sink_spec (cs : List Char) :
    ∀ (fd : Int) (d : List (Int × Char)) (cw : Nat),
      run_dprintf_sink ⟨fd, d, cw⟩ cs =
        ⟨fd, d ++ cs.map (fun c => (fd, c)), cw + cs.length⟩ := by
  induction cs with
  | nil => intro fd d cw; simp [run_dprintf_sink]
  | cons c cs ih =>
    intro fd d cw
    simp only [run_dprintf_sink, printf_output_dprintf]
    rw [ih]
    simp
    omega

theorem pop_and_store_cleanup_freed_loop_eq (count : Nat) :
    ∀ n i, (count - 1) - i = n →
      pop_and_store_cleanup_freed_loop count i = List.range' i n := by
  intro n
  induction n with
  | zero =>
    intro i h
    unfold pop_and_store_cleanup_freed_loop
    rw [if_neg (by omega)]
    simp
  | succ n ih =>
    intro i h
    unfold pop_and_store_cleanup_freed_loop
    rw [if_pos (by omega), ih (i + 1) (by omega), List.range'_succ]

theorem pop_and_store_cleanup_freed_eq (count : Nat) :
    pop_and_store_cleanup_freed count = List.range (count - 1) := by
  rw [pop_and_store_cleanup_freed,
    pop_and_store_cleanup_freed_loop_eq count (count - 1) 0 (by omega),
    List.range_eq_range']

/-!
Lemmas tracing the precision fields through the directive parsing chain:
the precision field is written only by the non-indirect precision branch,
which leaves preceding_precision at zero, so a parsed directive with a
nonzero preceding_precision keeps the precision of the initial descriptor.
-/

theorem read_format_string_type_precision (l : List Char) (fs : format_specifier) :
    (read_format_string_type l fs).1.precision = fs.precision ∧
    (read_format_string_type l fs).1.preceding_precision = fs.preceding_precision := by
  unfold read_format_string_type
  cases read_format_string_type_letter (peekChar l) <;> exact ⟨rfl, rfl⟩

theorem read_format_string_length_precision (l : List Char) (fs : format_specifier) :
    (read_format_string_length l fs).1.precision = fs.precision ∧
    (read_format_string_length l fs).1.preceding_precision = fs.preceding_precision := by
  unfold read_format_string_length
  exact ⟨(read_format_string_type_precision _ _).1, (read_format_string_type_precision _ _).2⟩

theorem read_format_string_precision_inv (l : List Char) (fs : format_specifier)
    (h : fs.preceding_precision = 0) :
    (read_format_string_precision l fs).1.preceding_precision ≠ 0 →
    (read_format_string_precision l fs).1.precision = fs.precision := by
  simp only [read_format_string_precision]
  split_ifs with h1 h2 h3 h4
  · intro _; rfl
  · intro _; exact (read_format_string_length_precision _ _).1
  · intro _; exact (read_format_string_length_precision _ _).1
  · intro hne
    rw [(read_format_string_length_precision _ _).2] at hne
    exact absurd h hne
  · intro hne
    rw [(read_format_string_length_precision _ _).2] at hne
    exact absurd h hne

theorem read_format_string_width_inv (l : List Char) (fs : format_specifier)
    (h : fs.preceding_precision = 0) :
    (read_format_string_width l fs).1.preceding_precision ≠ 0 →
    (read_format_string_width l fs).1.precision = fs.precision := by
  simp only [read_format_string_width]
  split_ifs with h1 h2 h3
  · intro hne; exact absurd h hne
  · exact read_format_string_precision_inv _ _ h
  · exact read_format_string_precision_inv _ _ h
  · exact read_format_string_precision_inv _ _ h

theorem read_format_string_flags_inv (l : List Char) (fs : format_specifier) (e : format_error) :
    fs.preceding_precision = 0 →
    (read_format_string_flags l fs e).1.preceding_precision ≠ 0 →
    (read_format_string_flags l fs e).1.precision = fs.precision := by
  induction l, fs, e using read_format_string_flags.induct with
  | case1 rest fs e ih =>
    intro h hne
    simp only [read_format_string_flags] at hne ⊢
    exact ih h hne
  | case2 rest fs e ih =>
    intro h hne
    simp only [read_format_string_flags] at hne ⊢
    exact ih h hne
  | case3 rest fs e ih =>
    intro h hne
    simp only [read_format_string_flags] at hne ⊢
    exact ih h hne
  | case4 rest fs e ih =>
    intro h hne
    simp only [read_format_string_flags] at hne ⊢
    exact ih h hne
  | case5 rest fs e ih =>
    intro h hne
    simp only [read_format_string_flags] at hne ⊢
    exact ih h hne
  | case6 l fs e h1 h2 h3 h4 h5 =>
    intro h hne
    simp only [read_format_string_flags] at hne ⊢
    exact read_format_string_width_inv _ _ h hne

theorem read_format_string_position_inv (l : List Char) (fs : format_specifier)
    (h : fs.preceding_precision = 0) :
    (read_format_string_position l fs).1.preceding_precision ≠ 0 →
    (read_format_string_position l fs).1.precision = fs.precision := by
  simp only [read_format_string_position]
  split_ifs with h1 h2
  · exact read_format_string_flags_inv _ _ _ h
  · exact read_format_string_precision_inv _ _ h
  · exact read_format_string_flags_inv _ _ _ h

theorem read_format_string_pp_precision (l : List Char) :
    (read_format_string l).1.preceding_precision ≠ 0 →
    (read_format_string l).1.precision = -1 := by
  simp only [read_format_string]
  split_ifs with h1 h2
  · exact read_format_string_position_inv _ _ rfl
  · exact read_format_string_position_inv _ _ rfl
  · exact read_format_string_position_inv _ _ rfl


/-!
Claim theorems.
-/

/-- C1: for every character sequence the engine emits, the fixed-buffer
sink of size S stores exactly the first min(length, S - 1) characters
(hence at most max(S - 1, 0) bytes), counts every emitted character
including the suppressed ones, and the snprintf entry point returns this
counter on success, the length of the full unbounded output; with S = 0 no
byte is stored and no terminator is placed. -/
theorem claim_C1_snprintf_sink (size : Nat) (emitted : List Char) :
    (run_sprintf_sink ⟨[], size, 0⟩ emitted).string_written = emitted.take (size - 1)
    ∧ (run_sprintf_sink ⟨[], size, 0⟩ emitted).string_written.length =
        min emitted.length (size - 1)
    ∧ (run_sprintf_sink ⟨[], size, 0⟩ emitted).characters_written = emitted.length
    ∧ (new_snprintf_result size emitted).1 = (emitted.length : Int)
    ∧ (size = 0 → (new_snprintf_result size emitted).2 = []) := by
  have h := run_sprintf_sink_spec emitted [] size 0
  refine ⟨?_, ?_, ?_, ?_, ?_⟩
  · rw [h]; simp
  · rw [h]; simp [Nat.min_comm]
  · rw [h]; simp
  · simp only [new_snprintf_result]; rw [h]; simp
  · intro hz
    subst hz
    simp only [new_snprintf_result]
    rw [h]
    simp

/-- C1 witness: with size 0 the sink stores nothing, places no terminator,
and the entry point still returns the unbounded length. -/
theorem claim_C1_snprintf_sink_witness :
    (new_snprintf_result 0 ['h', 'i']).2 = [] ∧
    (new_snprintf_result 0 ['h', 'i']).1 = 2 :=
  ⟨(claim_C1_snprintf_sink 0 ['h', 'i']).2.2.2.2 rfl,
   (claim_C1_snprintf_sink 0 ['h', 'i']).2.2.2.1⟩

/-- C2: new_vdprintf builds a descriptor sink, which printf_output routes
to the descriptor writer; every emitted character is delivered to the given
descriptor through the write primitive and the success return value is the
count.  new_dprintf however builds its sink with type OUTPUT_stream and a
null stream handle, so printf_output routes its characters to the stream
writer, not to the descriptor writer. -/
theorem claim_C2_dprintf_routing (fd : Int) (emitted : List Char) :
    ((new_vdprintf_output fd).type = OUTPUT_file_descriptor
      ∧ printf_output_dispatch OUTPUT_file_descriptor = some sink_writer.dprintf_writer
      ∧ (run_dprintf_sink ⟨fd, [], 0⟩ emitted).delivered = emitted.map (fun c => (fd, c))
      ∧ new_vdprintf_result fd emitted = (emitted.length : Int))
    ∧ ((new_dprintf_output fd).type = OUTPUT_stream
      ∧ (new_dprintf_output fd).stream = none
      ∧ printf_output_dispatch OUTPUT_stream = some sink_writer.fprintf_writer
      ∧ sink_writer.fprintf_writer ≠ sink_writer.dprintf_writer) := by
  have h := run_dprintf_sink_spec emitted fd [] 0
  refine ⟨⟨rfl, rfl, ?_, ?_⟩, rfl, rfl, rfl, by decide⟩
  · rw [h]; simp
  · simp only [new_vdprintf_result]; rw [h]; simp

/-- C3: on the template with a positional indirect precision, the pre-scan
records the integer slot at index preceding_width - 1 = -1 instead of at
index preceding_precision - 1 = 1; slot 1 stays unrecorded, so the whole
pre-scan fails, while the claim requires the slot of index 2 (1-based) to
be recorded and the scan to succeed. -/
theorem claim_C3_prescan_precision_slot :
    parse_format_string_for_positions ("%1$.*2$d".toList) = none
    ∧ (parse_format_string_for_positions_loop ("%1$.*2$d".toList) pia_init 0).map
        (fun r => (r.1 (-1), r.1 0, r.1 1, r.2)) =
      some (⟨LENGTH_none, TYPE_i⟩, ⟨LENGTH_none, TYPE_d⟩, ⟨LENGTH_none, TYPE_ERROR⟩, 2) :=
  ⟨rfl, rfl⟩

/-- C4: the cleanup loop of pop_and_store_cleanup frees exactly the
indices in [0, count - 1), so for every positive count the last stored item
at index count - 1 is never freed; with two slots only index 0 is freed. -/
theorem claim_C4_cleanup_misses_last :
    pop_and_store_cleanup_freed 2 = [0]
    ∧ (∀ count : Nat, pop_and_store_cleanup_freed count = List.range (count - 1))
    ∧ ∀ count : Nat, 1 ≤ count → (count - 1) ∉ pop_and_store_cleanup_freed count := by
  refine ⟨?_, pop_and_store_cleanup_freed_eq, ?_⟩
  · rw [pop_and_store_cleanup_freed_eq]; rfl
  · intro count h
    rw [pop_and_store_cleanup_freed_eq, List.mem_range]
    omega

/-- C4 witness: with two stored items, item 1 is not freed. -/
theorem claim_C4_cleanup_misses_last_witness :
    (2 - 1) ∉ pop_and_store_cleanup_freed 2 :=
  claim_C4_cleanup_misses_last.2.2 2 (by norm_num)

/-- C6: a negative width fetched for a star directive turns on
left_justify and uses the absolute value, identical to the same directive
with the minus flag and the absolute width, and the single value INT_MIN is
clamped to width INT_MAX. -/
theorem claim_C6_negative_star_width (fs : format_specifier) (w : Int)
    (hw : w < 0) :
    (generic_printf_apply_width fs w).left_justify = true
    ∧ (w ≠ INT_MIN →
        generic_printf_apply_width fs w =
          generic_printf_apply_width {fs with left_justify := true} (-w))
    ∧ (w = INT_MIN → (generic_printf_apply_width fs w).width = INT_MAX.toNat) := by
  refine ⟨?_, ?_, ?_⟩
  · unfold generic_printf_apply_width
    rw [if_neg (by omega)]
    split_ifs <;> rfl
  · intro hmin
    unfold generic_printf_apply_width
    rw [if_neg (by omega), if_neg hmin, if_pos (by omega)]
  · intro hmin
    unfold generic_printf_apply_width
    rw [if_neg (by omega), if_pos hmin]

/-- C6 witness: width argument -5 behaves as left_justify with width 5. -/
theorem claim_C6_negative_star_width_witness :
    (generic_printf_apply_width format_specifier_init (-5)).left_justify = true
    ∧ generic_printf_apply_width format_specifier_init (-5) =
        generic_printf_apply_width {format_specifier_init with left_justify := true} 5 :=
  ⟨(claim_C6_negative_star_width format_specifier_init (-5) (by norm_num)).1,
   (claim_C6_negative_star_width format_specifier_init (-5) (by norm_num)).2.1
     (by decide)⟩

/-- C8: the growable sink starts at capacity 16 and keeps its capacity
field equal to the actual allocation while doubling during character
writes; but the success epilogue of new_asprintf, when the terminator does
not fit, reallocates to allocated_size + 1 while doubling the field, so
with 16 characters written the field becomes 32 although only 17 bytes are
allocated. -/
theorem claim_C8_asprintf_capacity_field :
    (new_asprintf_init.allocated_size = 16 ∧ new_asprintf_init.actual_allocation = 16)
    ∧ (∀ (o : output_specifier_asprintf) (c : Char),
        o.allocated_size = o.actual_allocation →
        ((printf_output_asprintf o c).1.allocated_size =
            (printf_output_asprintf o c).1.actual_allocation
          ∧ (o.characters_written ≥ o.allocated_size →
              (printf_output_asprintf o c).1.allocated_size = o.allocated_size * 2)))
    ∧ (new_asprintf_finalize ⟨List.replicate 16 'a', 16, 16, 16⟩).actual_allocation = 17
    ∧ (new_asprintf_finalize ⟨List.replicate 16 'a', 16, 16, 16⟩).allocated_size = 32
    ∧ (17 : Nat) ≠ 32 := by
  refine ⟨⟨rfl, rfl⟩, ?_, rfl, rfl, by norm_num⟩
  intro o c h
  unfold printf_output_asprintf
  split_ifs with h1
  · exact ⟨rfl, fun _ => rfl⟩
  · exact ⟨h, fun hc => absurd hc h1⟩

/-- C8 witness: a full sink write keeps the field equal to the allocation. -/
theorem claim_C8_asprintf_capacity_field_witness :
    (printf_output_asprintf new_asprintf_init 'a').1.allocated_size =
      (printf_output_asprintf new_asprintf_init 'a').1.actual_allocation :=
  ((claim_C8_asprintf_capacity_field.2.1 new_asprintf_init 'a' rfl).1)

/-- C9: the length and type validator accepts the l length with c and with
s, returning no error for the lc and ls directives, whose descriptors keep
length l and the narrow character or string type; the claimed rejection
with return -1 does not happen. -/
theorem claim_C9_wide_accepted :
    format_error_is_error (read_format_string ("lc".toList)).2 = false
    ∧ (read_format_string ("lc".toList)).1.type = TYPE_c
    ∧ (read_format_string ("lc".toList)).1.length = LENGTH_l
    ∧ format_error_is_error (read_format_string ("ls".toList)).2 = false
    ∧ (read_format_string ("ls".toList)).1.type = TYPE_s
    ∧ (read_format_string ("ls".toList)).1.length = LENGTH_l
    ∧ format_string_check_length_type
        {format_specifier_init with length := LENGTH_l, type := TYPE_c} = FORMAT_okay
    ∧ format_string_check_length_type
        {format_specifier_init with length := LENGTH_l, type := TYPE_s} = FORMAT_okay :=
  ⟨rfl, rfl, rfl, rfl, rfl, rfl, rfl, rfl⟩

/-- C10: a fetched precision below zero is ignored: the descriptor is
unchanged, and since a directive parsed with an indirect precision carries
the sentinel -1, its precision stays -1, behaving as if no precision had
been given. -/
theorem claim_C10_negative_precision_ignored (l : List Char) (p : Int)
    (hp : p < 0)
    (hpp : (read_format_string l).1.preceding_precision ≠ 0) :
    generic_printf_apply_precision (read_format_string l).1 p = (read_format_string l).1
    ∧ (generic_printf_apply_precision (read_format_string l).1 p).precision = -1 := by
  have h1 : generic_printf_apply_precision (read_format_string l).1 p =
      (read_format_string l).1 := by
    unfold generic_printf_apply_precision
    rw [if_neg (by omega)]
  exact ⟨h1, by rw [h1]; exact read_format_string_pp_precision l hpp⟩

/-- C10 witness: the directive .*d with fetched precision -3 keeps the
sentinel -1. -/
theorem claim_C10_negative_precision_ignored_witness :
    (generic_printf_apply_precision (read_format_string (".*d".toList)).1 (-3)).precision = -1 :=
  (claim_C10_negative_precision_ignored (".*d".toList) (-3) (by norm_num)
    (by decide)).2

/-!
Lemmas about the integer emitter, and claims C5 and C7.
-/

theorem write_integer_backwards_length_pos (value : Nat) (fs : format_specifier)
    (base : Nat) :
    1 ≤ (write_integer_backwards value fs base).length := by
  unfold write_integer_backwards
  split
  all_goals split
  all_goals try split
  all_goals simp

theorem write_integer_backwards_type_congr (value : Nat) (fs fs2 : format_specifier)
    (base : Nat) (h : fs.type = fs2.type) :
    write_integer_backwards value fs base = write_integer_backwards value fs2 base := by
  induction value using Nat.strong_induction_on with
  | _ value ih =>
    unfold write_integer_backwards
    rw [h]
    by_cases hb : base ≤ 1
    · simp [hb]
    · by_cases hz : value / base = 0
      · simp [hb, hz]
      · simp only [hb, hz, dif_neg, not_false_iff]
        rw [ih (value / base)
          (Nat.div_lt_self (Nat.pos_of_ne_zero (fun hv => hz (by simp [hv]))) (by omega))]

theorem write_backwards_buffer_with_padding_justify (buffer : List Char)
    (fs : format_specifier) (pfx pfx2 : Char) (padding precision_padding : Nat)
    (hzp : fs.zero_padded = false) :
    write_backwards_buffer_with_padding buffer fs pfx pfx2 padding precision_padding =
      justify_spec fs.left_justify padding
        (prefix_char_list pfx ++ prefix_char_list pfx2 ++
          List.replicate precision_padding '0' ++ buffer.reverse) := by
  cases hl : fs.left_justify <;>
    simp [write_backwards_buffer_with_padding, hzp, hl, justify_spec,
      write_backwards_buffer, pad_output, List.append_assoc]

theorem record_af_left_justify (fs : format_specifier) (b : Bool) :
    ({fs with alternate_form := b} : format_specifier).left_justify = fs.left_justify := rfl

theorem decimal_sign_prefix_eq (fs : format_specifier) :
    prefix_char_list (if fs.always_sign then '+' else if fs.empty_sign then ' ' else '\x00') =
      sign_prefix_spec fs := by
  have h1 : ('+' : Char) ≠ '\x00' := by decide
  have h2 : (' ' : Char) ≠ '\x00' := by decide
  by_cases ha : fs.always_sign
  · simp [prefix_char_list, sign_prefix_spec, ha, h1]
  · by_cases he : fs.empty_sign
    · simp [prefix_char_list, sign_prefix_spec, ha, he, h2]
    · simp [prefix_char_list, sign_prefix_spec, ha, he]

theorem sign_prefix_spec_length (fs : format_specifier) :
    (sign_prefix_spec fs).length = if fs.always_sign ∨ fs.empty_sign then 1 else 0 := by
  unfold sign_prefix_spec
  split_ifs <;> simp_all

theorem hex_prefix_eq (fs : format_specifier) :
    prefix_char_list (if fs.alternate_form then '0' else '\x00') ++
      prefix_char_list
        (if fs.alternate_form then (if fs.type = TYPE_X then 'X' else 'x') else '\x00') =
      hex_prefix_spec fs := by
  have h0 : ('0' : Char) ≠ '\x00' := by decide
  have hx : ('x' : Char) ≠ '\x00' := by decide
  have hX : ('X' : Char) ≠ '\x00' := by decide
  by_cases ha : fs.alternate_form
  · by_cases ht : fs.type = TYPE_X <;>
      simp [prefix_char_list, hex_prefix_spec, ha, ht, h0, hx, hX]
  · simp [prefix_char_list, hex_prefix_spec, ha]

theorem hex_prefix_append_eq (fs : format_specifier) (tail : List Char) :
    prefix_char_list (if fs.alternate_form then '0' else '\x00') ++
      (prefix_char_list
        (if fs.alternate_form then (if fs.type = TYPE_X then 'X' else 'x') else '\x00') ++
        tail) = hex_prefix_spec fs ++ tail := by
  rw [← List.append_assoc, hex_prefix_eq]

theorem hex_prefix_spec_length (fs : format_specifier) :
    (hex_prefix_spec fs).length = if fs.alternate_form then 2 else 0 := by
  unfold hex_prefix_spec
  split_ifs <;> simp

theorem format_string_check_unused_values_final_zero_pad (fs : format_specifier)
    (r : format_error) :
    (format_string_check_unused_values_final fs r).1.precision = -1 ∨
      (format_string_check_unused_values_final fs r).1.zero_padded = false := by
  unfold format_string_check_unused_values_final
  split_ifs with h
  · right; rfl
  · rcases Decidable.em (fs.precision = -1) with hp | hp
    · left; exact hp
    · right
      by_contra hzb
      exact h ⟨hp, by simpa using hzb⟩

theorem format_string_check_unused_values_zero_pad (g : format_specifier) :
    (format_string_check_unused_values g).1.precision = -1 ∨
      (format_string_check_unused_values g).1.zero_padded = false := by
  unfold format_string_check_unused_values
  exact format_string_check_unused_values_final_zero_pad _ _

theorem write_backwards_buffer_with_padding_flags_congr (buffer : List Char)
    (fs fs2 : format_specifier) (pfx pfx2 : Char) (padding precision_padding : Nat)
    (hz : fs.zero_padded = fs2.zero_padded) (hl : fs.left_justify = fs2.left_justify) :
    write_backwards_buffer_with_padding buffer fs pfx pfx2 padding precision_padding =
      write_backwards_buffer_with_padding buffer fs2 pfx pfx2 padding precision_padding := by
  simp only [write_backwards_buffer_with_padding, hz, hl]

theorem write_decimal_positive_spec_render (value : Nat) (fs : format_specifier)
    (hzp : fs.zero_padded = false)
    (hp0 : 0 ≤ fs.precision) (hp1 : fs.precision < 2 ^ 31) :
    write_decimal_positive value fs =
        justify_spec fs.left_justify
          (fs.width - ((integer_spec_render value fs 10 fs.precision.toNat).length +
            (sign_prefix_spec fs).length))
          (sign_prefix_spec fs ++ integer_spec_render value fs 10 fs.precision.toNat)
      ∧ (integer_spec_render value fs 10 fs.precision.toNat).length =
          (if fs.precision = 0 ∧ value = 0 then 0
            else max (write_integer_backwards value fs 10).length fs.precision.toNat) := by
  have hcast : (fs.precision % (2 ^ 32 : Int)).toNat = fs.precision.toNat := by
    rw [Int.emod_eq_of_lt hp0 (by omega)]
  have hL := write_integer_backwards_length_pos value fs 10
  have hne1 : fs.precision ≠ -1 := by omega
  have hnul : prefix_char_list '\x00' = [] := rfl
  have hsiglen := sign_prefix_spec_length fs
  by_cases hz : fs.precision = 0 ∧ value = 0
  · obtain ⟨hz1, hz2⟩ := hz
    have hpt : fs.precision.toNat = 0 := by rw [hz1]; rfl
    have hsr : integer_spec_render value fs 10 fs.precision.toNat = [] := by
      rw [integer_spec_render, if_pos ⟨hpt, hz2⟩]
    have hwdp : write_decimal_positive value fs =
        justify_spec fs.left_justify (fs.width - (0 + (sign_prefix_spec fs).length))
          (sign_prefix_spec fs) := by
      simp only [write_decimal_positive, if_pos (⟨hz1, hz2⟩ : fs.precision = 0 ∧ value = 0),
        if_neg hne1, hcast, hpt, List.length_nil, gt_iff_lt, Nat.lt_irrefl, if_false,
        write_backwards_buffer_with_padding_justify _ _ _ _ _ _ hzp,
        decimal_sign_prefix_eq, hnul, List.replicate_zero, List.reverse_nil,
        List.append_nil]
      have hpad : (if fs.always_sign ∨ fs.empty_sign then
            if fs.width > 0 + 1 then fs.width - 0 - 1 else 0
          else if fs.width > 0 then fs.width - 0 else 0) =
          fs.width - (0 + (sign_prefix_spec fs).length) := by
        rw [hsiglen]; split_ifs <;> omega
      rw [hpad]
    refine ⟨?_, ?_⟩
    · rw [hsr, hwdp]; simp
    · rw [hsr]; simp [hz1, hz2]
  · have hzN : ¬(fs.precision.toNat = 0 ∧ value = 0) := by
      intro ⟨a, b⟩
      exact hz ⟨by omega, b⟩
    set L := (write_integer_backwards value fs 10).length with hLdef
    have hsr : integer_spec_render value fs 10 fs.precision.toNat =
        List.replicate (fs.precision.toNat - L) '0' ++
          (write_integer_backwards value fs 10).reverse := by
      rw [integer_spec_render, if_neg hzN]
    have hsrlen : (integer_spec_render value fs 10 fs.precision.toNat).length =
        max L fs.precision.toNat := by
      rw [hsr]
      simp only [List.length_append, List.length_replicate, List.length_reverse, ← hLdef]
      omega
    have hwdp : write_decimal_positive value fs =
        justify_spec fs.left_justify
          (fs.width - (max L fs.precision.toNat + (sign_prefix_spec fs).length))
          (sign_prefix_spec fs ++
            (List.replicate (fs.precision.toNat - L) '0' ++
              (write_integer_backwards value fs 10).reverse)) := by
      simp only [write_decimal_positive, if_neg hz, if_neg hne1, hcast, ← hLdef,
        write_backwards_buffer_with_padding_justify _ _ _ _ _ _ hzp,
        decimal_sign_prefix_eq, hnul, List.append_nil, List.nil_append,
        List.append_assoc]
      by_cases hp : fs.precision.toNat > L
      · rw [if_pos hp]
        have hmax : max L fs.precision.toNat = fs.precision.toNat := by omega
        have hpad : (if fs.always_sign ∨ fs.empty_sign then
              if fs.width > fs.precision.toNat + 1 then fs.width - fs.precision.toNat - 1 else 0
            else if fs.width > fs.precision.toNat then fs.width - fs.precision.toNat else 0) =
            fs.width - (fs.precision.toNat + (sign_prefix_spec fs).length) := by
          rw [hsiglen]; split_ifs <;> omega
        rw [hpad, hmax]
      · rw [if_neg hp]
        have hmax : max L fs.precision.toNat = L := by omega
        have hzero : fs.precision.toNat - L = 0 := by omega
        have hpad : (if fs.always_sign ∨ fs.empty_sign then
              if fs.width > L + 1 then fs.width - L - 1 else 0
            else if fs.width > L then fs.width - L else 0) =
            fs.width - (L + (sign_prefix_spec fs).length) := by
          rw [hsiglen]; split_ifs <;> omega
        rw [hpad, hmax, hzero]
    refine ⟨?_, ?_⟩
    · rw [hwdp, hsrlen, hsr]
    · rw [hsrlen, if_neg hz]

theorem write_hexadecimal_spec_render (value : Nat) (fs : format_specifier)
    (hzp : fs.zero_padded = false)
    (hp0 : 0 ≤ fs.precision) (hp1 : fs.precision < 2 ^ 31) :
    write_hexadecimal value fs =
        justify_spec fs.left_justify
          (fs.width - ((integer_spec_render value fs 16 fs.precision.toNat).length +
            (hex_prefix_spec fs).length))
          (hex_prefix_spec fs ++ integer_spec_render value fs 16 fs.precision.toNat)
      ∧ (integer_spec_render value fs 16 fs.precision.toNat).length =
          (if fs.precision = 0 ∧ value = 0 then 0
            else max (write_integer_backwards value fs 16).length fs.precision.toNat) := by
  have hcast : (fs.precision % (2 ^ 32 : Int)).toNat = fs.precision.toNat := by
    rw [Int.emod_eq_of_lt hp0 (by omega)]
  have hL := write_integer_backwards_length_pos value fs 16
  have hne1 : fs.precision ≠ -1 := by omega
  have hpfxlen := hex_prefix_spec_length fs
  by_cases hz : fs.precision = 0 ∧ value = 0
  · obtain ⟨hz1, hz2⟩ := hz
    have hpt : fs.precision.toNat = 0 := by rw [hz1]; rfl
    have hsr : integer_spec_render value fs 16 fs.precision.toNat = [] := by
      rw [integer_spec_render, if_pos ⟨hpt, hz2⟩]
    have hwdp : write_hexadecimal value fs =
        justify_spec fs.left_justify (fs.width - (0 + (hex_prefix_spec fs).length))
          (hex_prefix_spec fs) := by
      simp only [write_hexadecimal, if_pos (⟨hz1, hz2⟩ : fs.precision = 0 ∧ value = 0),
        if_neg hne1, hcast, hpt, List.length_nil, gt_iff_lt, Nat.lt_irrefl, if_false,
        write_backwards_buffer_with_padding_justify _ _ _ _ _ _ hzp,
        List.replicate_zero, List.reverse_nil, List.append_nil, List.append_assoc,
        hex_prefix_append_eq, hex_prefix_eq]
      have hpad : (if fs.alternate_form then
            if fs.width > 0 + 2 then fs.width - 0 - 2 else 0
          else if fs.width > 0 then fs.width - 0 else 0) =
          fs.width - (0 + (hex_prefix_spec fs).length) := by
        rw [hpfxlen]; split_ifs <;> omega
      rw [hpad]
    refine ⟨?_, ?_⟩
    · rw [hsr, hwdp]; simp
    · rw [hsr]; simp [hz1, hz2]
  · have hzN : ¬(fs.precision.toNat = 0 ∧ value = 0) := by
      intro ⟨a, b⟩
      exact hz ⟨by omega, b⟩
    set L := (write_integer_backwards value fs 16).length with hLdef
    have hsr : integer_spec_render value fs 16 fs.precision.toNat =
        List.replicate (fs.precision.toNat - L) '0' ++
          (write_integer_backwards value fs 16).reverse := by
      rw [integer_spec_render, if_neg hzN]
    have hsrlen : (integer_spec_render value fs 16 fs.precision.toNat).length =
        max L fs.precision.toNat := by
      rw [hsr]
      simp only [List.length_append, List.length_replicate, List.length_reverse, ← hLdef]
      omega
    have hwdp : write_hexadecimal value fs =
        justify_spec fs.left_justify
          (fs.width - (max L fs.precision.toNat + (hex_prefix_spec fs).length))
          (hex_prefix_spec fs ++
            (List.replicate (fs.precision.toNat - L) '0' ++
              (write_integer_backwards value fs 16).reverse)) := by
      simp only [write_hexadecimal, if_neg hz, if_neg hne1, hcast, ← hLdef,
        write_backwards_buffer_with_padding_justify _ _ _ _ _ _ hzp,
        List.append_assoc, hex_prefix_append_eq, hex_prefix_eq]
      by_cases hp : fs.precision.toNat > L
      · simp only [if_pos hp]
        have hmax : max L fs.precision.toNat = fs.precision.toNat := by omega
        have hpad : (if fs.alternate_form then
              if fs.width > fs.precision.toNat + 2 then fs.width - fs.precision.toNat - 2 else 0
            else if fs.width > fs.precision.toNat then fs.width - fs.precision.toNat else 0) =
            fs.width - (fs.precision.toNat + (hex_prefix_spec fs).length) := by
          rw [hpfxlen]; split_ifs <;> omega
        rw [hpad, hmax]
      · simp only [if_neg hp]
        have hmax : max L fs.precision.toNat = L := by omega
        have hzero : fs.precision.toNat - L = 0 := by omega
        have hpad : (if fs.alternate_form then
              if fs.width > L + 2 then fs.width - L - 2 else 0
            else if fs.width > L then fs.width - L else 0) =
            fs.width - (L + (hex_prefix_spec fs).length) := by
          rw [hpfxlen]; split_ifs <;> omega
        rw [hpad, hmax, hzero]
    refine ⟨?_, ?_⟩
    · rw [hwdp, hsrlen, hsr]
    · rw [hsrlen, if_neg hz]

theorem write_octal_spec_render (value : Nat) (fs : format_specifier)
    (hzp : fs.zero_padded = false)
    (hp0 : 0 ≤ fs.precision) (hp1 : fs.precision < 2 ^ 31) :
    write_octal value fs =
        justify_spec fs.left_justify
          (fs.width - ((integer_spec_render value fs 8 fs.precision.toNat).length +
            (octal_prefix_spec value fs fs.precision.toNat).length))
          (octal_prefix_spec value fs fs.precision.toNat ++
            integer_spec_render value fs 8 fs.precision.toNat)
      ∧ (integer_spec_render value fs 8 fs.precision.toNat).length =
          (if fs.precision = 0 ∧ value = 0 then 0
            else max (write_integer_backwards value fs 8).length fs.precision.toNat) := by
  have hcast : (fs.precision % (2 ^ 32 : Int)).toNat = fs.precision.toNat := by
    rw [Int.emod_eq_of_lt hp0 (by omega)]
  have hL := write_integer_backwards_length_pos value fs 8
  have hne1 : fs.precision ≠ -1 := by omega
  have hnul : prefix_char_list '\x00' = [] := rfl
  have hpclite : prefix_char_list (if fs.alternate_form then '0' else '\x00') =
      if fs.alternate_form then ['0'] else [] := by
    have h0 : ('0' : Char) ≠ '\x00' := by decide
    by_cases ha : fs.alternate_form <;> simp [prefix_char_list, ha, h0]
  by_cases hz : fs.precision = 0 ∧ value = 0
  · obtain ⟨hz1, hz2⟩ := hz
    have hpt : fs.precision.toNat = 0 := by rw [hz1]; rfl
    have hsr : integer_spec_render value fs 8 fs.precision.toNat = [] := by
      rw [integer_spec_render, if_pos ⟨hpt, hz2⟩]
    have hops0 : octal_prefix_spec value fs 0 =
        if fs.alternate_form then ['0'] else [] := by
      by_cases ha : fs.alternate_form <;> simp [octal_prefix_spec, hz2, ha]
    have hopslen0 : (octal_prefix_spec value fs 0).length =
        if fs.alternate_form then 1 else 0 := by
      rw [hops0]; by_cases ha : fs.alternate_form <;> simp [ha]
    have hwdp : write_octal value fs =
        justify_spec fs.left_justify
          (fs.width - (0 + (octal_prefix_spec value fs 0).length))
          (octal_prefix_spec value fs 0) := by
      simp only [write_octal, if_pos (⟨hz1, hz2⟩ : fs.precision = 0 ∧ value = 0),
        if_neg hne1, hcast, hpt, List.length_nil, gt_iff_lt, Nat.lt_irrefl, if_false,
        write_backwards_buffer_with_padding_justify _
          {fs with alternate_form := fs.alternate_form} _ _ _ _ hzp,
        record_af_left_justify, hpclite, hnul,
        List.replicate_zero, List.reverse_nil, List.append_nil, List.append_assoc]
      have hpad : (if fs.alternate_form then
            if 0 + 1 < fs.width then fs.width - 0 - 1 else 0
          else if 0 < fs.width then fs.width - 0 else 0) =
          fs.width - (0 + (octal_prefix_spec value fs 0).length) := by
        rw [hopslen0]; split_ifs <;> omega
      rw [hpad, hops0]
    refine ⟨?_, ?_⟩
    · rw [hsr, hpt, hwdp]; simp
    · rw [hsr]; simp [hz1, hz2]
  · have hzN : ¬(fs.precision.toNat = 0 ∧ value = 0) := by
      intro ⟨a, b⟩
      exact hz ⟨by omega, b⟩
    set L := (write_integer_backwards value fs 8).length with hLdef
    have hsr : integer_spec_render value fs 8 fs.precision.toNat =
        List.replicate (fs.precision.toNat - L) '0' ++
          (write_integer_backwards value fs 8).reverse := by
      rw [integer_spec_render, if_neg hzN]
    have hsrlen : (integer_spec_render value fs 8 fs.precision.toNat).length =
        max L fs.precision.toNat := by
      rw [hsr]
      simp only [List.length_append, List.length_replicate, List.length_reverse, ← hLdef]
      omega
    have hwdp : write_octal value fs =
        justify_spec fs.left_justify
          (fs.width - (max L fs.precision.toNat +
            (octal_prefix_spec value fs fs.precision.toNat).length))
          (octal_prefix_spec value fs fs.precision.toNat ++
            (List.replicate (fs.precision.toNat - L) '0' ++
              (write_integer_backwards value fs 8).reverse)) := by
      by_cases hp : fs.precision.toNat > L
      · have hops : octal_prefix_spec value fs fs.precision.toNat = [] := by
          unfold octal_prefix_spec
          rw [if_neg]
          rintro ⟨ha, hle⟩
          rw [if_neg hzN] at hle
          omega
        simp only [write_octal, if_neg hz, if_neg hne1, hcast, ← hLdef, if_pos hp,
          Bool.false_eq_true, if_false,
          write_backwards_buffer_with_padding_justify _
            {fs with alternate_form := false} _ _ _ _ hzp,
          record_af_left_justify, hnul, hops,
          List.append_nil, List.nil_append, List.append_assoc]
        have hmax : max L fs.precision.toNat = fs.precision.toNat := by omega
        have hpad : (if fs.width > fs.precision.toNat then
              fs.width - fs.precision.toNat else 0) =
            fs.width - (fs.precision.toNat +
              (octal_prefix_spec value fs fs.precision.toNat).length) := by
          rw [hops]
          split_ifs <;> simp <;> omega
        rw [hpad, hmax, hops]
      · have hAF : (if L > L then false else fs.alternate_form) = fs.alternate_form := by
          simp
        have hle : fs.precision.toNat ≤ (write_integer_backwards value fs 8).length := by
          omega
        have hcond : ¬(fs.precision ≤ 0 ∧ value = 0) := by
          intro ⟨a, b⟩
          exact hz ⟨by omega, b⟩
        have hops : octal_prefix_spec value fs fs.precision.toNat =
            if fs.alternate_form then ['0'] else [] := by
          by_cases ha : fs.alternate_form <;>
            simp [octal_prefix_spec, hzN, hcond, ha, hle]
        have hopslen : (octal_prefix_spec value fs fs.precision.toNat).length =
            if fs.alternate_form then 1 else 0 := by
          rw [hops]; by_cases ha : fs.alternate_form <;> simp [ha]
        have hzero : fs.precision.toNat - L = 0 := by omega
        simp only [write_octal, if_neg hz, if_neg hne1, hcast, ← hLdef, if_neg hp, hAF,
          write_backwards_buffer_with_padding_justify _
            {fs with alternate_form := fs.alternate_form} _ _ _ _ hzp,
          record_af_left_justify, hpclite, hnul,
          List.replicate_zero, List.append_nil, List.nil_append, List.append_assoc]
        have hmax : max L fs.precision.toNat = L := by omega
        have hpad : (if fs.alternate_form then
              if fs.width > L + 1 then fs.width - L - 1 else 0
            else if fs.width > L then fs.width - L else 0) =
            fs.width - (L + (octal_prefix_spec value fs fs.precision.toNat).length) := by
          rw [hopslen]; split_ifs <;> omega
        rw [hpad, hmax, hzero, hops]
        simp
    refine ⟨?_, ?_⟩
    · rw [hwdp, hsrlen, hsr]
    · rw [hsrlen, if_neg hz]

theorem write_decimal_positive_default_precision (v : Nat) (g : format_specifier) :
    write_decimal_positive v {g with precision := -1} =
      write_decimal_positive v {g with precision := 1} := by
  have hc : write_integer_backwards v {g with precision := (-1 : Int)} 10 =
      write_integer_backwards v {g with precision := (1 : Int)} 10 :=
    write_integer_backwards_type_congr v _ _ 10 rfl
  have hL := write_integer_backwards_length_pos v {g with precision := (1 : Int)} 10
  have hgt : ¬((1 : Nat) > (write_integer_backwards v {g with precision := (1 : Int)} 10).length) := by
    omega
  simp only [write_decimal_positive, hc]
  norm_num [hgt]
  exact write_backwards_buffer_with_padding_flags_congr _ _ _ _ _ _ _ rfl rfl

theorem write_hexadecimal_default_precision (v : Nat) (g : format_specifier) :
    write_hexadecimal v {g with precision := -1} =
      write_hexadecimal v {g with precision := 1} := by
  have hc : write_integer_backwards v {g with precision := (-1 : Int)} 16 =
      write_integer_backwards v {g with precision := (1 : Int)} 16 :=
    write_integer_backwards_type_congr v _ _ 16 rfl
  have hL := write_integer_backwards_length_pos v {g with precision := (1 : Int)} 16
  have hgt : ¬((1 : Nat) > (write_integer_backwards v {g with precision := (1 : Int)} 16).length) := by
    omega
  simp only [write_hexadecimal, hc]
  norm_num [hgt]
  exact write_backwards_buffer_with_padding_flags_congr _ _ _ _ _ _ _ rfl rfl

theorem write_octal_default_precision (v : Nat) (g : format_specifier) :
    write_octal v {g with precision := -1} =
      write_octal v {g with precision := 1} := by
  have hc : write_integer_backwards v {g with precision := (-1 : Int)} 8 =
      write_integer_backwards v {g with precision := (1 : Int)} 8 :=
    write_integer_backwards_type_congr v _ _ 8 rfl
  have hL := write_integer_backwards_length_pos v {g with precision := (1 : Int)} 8
  have hgt : ¬((1 : Nat) > (write_integer_backwards v {g with precision := (1 : Int)} 8).length) := by
    omega
  simp only [write_octal, hc]
  norm_num [hgt]
  exact write_backwards_buffer_with_padding_flags_congr _ _ _ _ _ _ _ rfl rfl

/-- C5: for every integer conversion (d, i, u dispatch to the decimal
emitter, o to the octal emitter, x and X to the hexadecimal emitter) with
an explicit non-negative precision, under every combination of the minus,
plus, space and hash flags, the output is the sign or base prefix followed
by the digit field of integer_spec_render, the digits zero-extended on the
left to the precision, space-padded to the width on the side the
justification selects; the digit field has length max(digit count,
precision) except with precision 0 and value 0, where it is empty while
width padding still applies over the empty field and the prefix; the
zero-pad hypothesis covers every descriptor the flag normaliser can
produce with an explicit precision, since the normaliser never leaves
zero-pad set together with an explicit precision; and the default
precision -1 renders identically to precision 1 for every value and
descriptor. -/
theorem claim_C5_integer_precision (value : Nat) (fs : format_specifier)
    (hzp : fs.zero_padded = false)
    (hp0 : 0 ≤ fs.precision) (hp1 : fs.precision < 2 ^ 31) :
    ((fs.type = TYPE_d ∨ fs.type = TYPE_i ∨ fs.type = TYPE_u →
        write_integer_positive value fs = write_decimal_positive value fs)
      ∧ (fs.type = TYPE_o → write_integer_positive value fs = write_octal value fs)
      ∧ (fs.type = TYPE_x ∨ fs.type = TYPE_X →
        write_integer_positive value fs = write_hexadecimal value fs))
    ∧ (∀ base, base = 10 ∨ base = 16 ∨ base = 8 →
        (integer_spec_render value fs base fs.precision.toNat).length =
          (if fs.precision = 0 ∧ value = 0 then 0
            else max (write_integer_backwards value fs base).length fs.precision.toNat))
    ∧ write_decimal_positive value fs =
        justify_spec fs.left_justify
          (fs.width - ((integer_spec_render value fs 10 fs.precision.toNat).length +
            (sign_prefix_spec fs).length))
          (sign_prefix_spec fs ++ integer_spec_render value fs 10 fs.precision.toNat)
    ∧ write_hexadecimal value fs =
        justify_spec fs.left_justify
          (fs.width - ((integer_spec_render value fs 16 fs.precision.toNat).length +
            (hex_prefix_spec fs).length))
          (hex_prefix_spec fs ++ integer_spec_render value fs 16 fs.precision.toNat)
    ∧ write_octal value fs =
        justify_spec fs.left_justify
          (fs.width - ((integer_spec_render value fs 8 fs.precision.toNat).length +
            (octal_prefix_spec value fs fs.precision.toNat).length))
          (octal_prefix_spec value fs fs.precision.toNat ++
            integer_spec_render value fs 8 fs.precision.toNat)
    ∧ (∀ g, (format_string_check_unused_values g).1.precision = -1 ∨
        (format_string_check_unused_values g).1.zero_padded = false)
    ∧ (∀ (v : Nat) (g : format_specifier),
        write_decimal_positive v {g with precision := -1} =
            write_decimal_positive v {g with precision := 1}
          ∧ write_hexadecimal v {g with precision := -1} =
            write_hexadecimal v {g with precision := 1}
          ∧ write_octal v {g with precision := -1} =
            write_octal v {g with precision := 1}) := by
  refine ⟨⟨?_, ?_, ?_⟩, ?_, ?_, ?_, ?_, ?_, ?_⟩
  · intro h
    rcases h with h | h | h <;> simp [write_integer_positive, h]
  · intro h
    simp [write_integer_positive, h]
  · intro h
    rcases h with h | h <;> simp [write_integer_positive, h]
  · intro base hbase
    rcases hbase with h | h | h
    · rw [h]
      exact (write_decimal_positive_spec_render value fs hzp hp0 hp1).2
    · rw [h]
      exact (write_hexadecimal_spec_render value fs hzp hp0 hp1).2
    · rw [h]
      exact (write_octal_spec_render value fs hzp hp0 hp1).2
  · exact (write_decimal_positive_spec_render value fs hzp hp0 hp1).1
  · exact (write_hexadecimal_spec_render value fs hzp hp0 hp1).1
  · exact (write_octal_spec_render value fs hzp hp0 hp1).1
  · intro g
    exact format_string_check_unused_values_zero_pad g
  · intro v g
    exact ⟨write_decimal_positive_default_precision v g,
      write_hexadecimal_default_precision v g,
      write_octal_default_precision v g⟩

/-- C5 witness: precision 0 with value 0 emits the empty digit field, no
sign prefix, and the width-5 decimal output is all spaces. -/
theorem claim_C5_integer_precision_witness :
    write_decimal_positive 0 {format_specifier_init with precision := 0, width := 5} =
      justify_spec false
        (5 - ((integer_spec_render 0
            {format_specifier_init with precision := 0, width := 5} 10
            ((0 : Int)).toNat).length +
          (sign_prefix_spec {format_specifier_init with precision := 0, width := 5}).length))
        (sign_prefix_spec {format_specifier_init with precision := 0, width := 5} ++
          integer_spec_render 0 {format_specifier_init with precision := 0, width := 5} 10
            ((0 : Int)).toNat) :=
  (claim_C5_integer_precision 0 {format_specifier_init with precision := 0, width := 5}
    rfl (by decide) (by decide)).2.2.1

/-- C7 counterexample: with precision 5, a precision that permits at least
five bytes, the null string argument renders as the five-byte prefix of
the literal, not as the literal itself, so the claim as stated fails. -/
theorem claim_C7_null_string_counterexample :
    write_string none {format_specifier_init with precision := 5} = "(null".toList
    ∧ "(null".toList ≠ "(null)".toList := ⟨rfl, by decide⟩

/-- C7 amended: the null literal is rendered in full when precision is
unspecified or permits at least six bytes; precision 0 accepts the null
argument and emits only width padding; with precision 1 to 5 the first
precision bytes of the literal are emitted, never the full literal; in
every case the width padding falls after the content under left
justification and before it otherwise. -/
theorem claim_C7_null_string (fs : format_specifier)
    (hr : fs.precision < 2 ^ 31) :
    ((fs.precision = -1 ∨ 6 ≤ fs.precision) →
      write_string none fs =
        justify_spec fs.left_justify (fs.width - 6) null_string_string)
    ∧ (fs.precision = 0 → write_string none fs = List.replicate fs.width ' ')
    ∧ (1 ≤ fs.precision → fs.precision < 6 →
      write_string none fs =
        justify_spec fs.left_justify (fs.width - fs.precision.toNat)
          (null_string_string.take fs.precision.toNat)) := by
  have hlen6 : null_string_string.length = 6 := by decide
  refine ⟨?_, ?_, ?_⟩
  · intro h6
    rcases h6 with hm1 | h6
    · cases hl : fs.left_justify with
      | false =>
        simp only [write_string, hm1, strnlen_safe, Option.getD_some, hl, pad_output,
          write_forwards_buffer, justify_spec]
        norm_num
        rw [hlen6]
        split_ifs <;> omega
      | true =>
        simp only [write_string, hm1, strnlen_safe, Option.getD_some, hl, pad_output,
          write_forwards_buffer, justify_spec]
        norm_num
        rw [hlen6]
        split_ifs <;> omega
    · have hp0 : fs.precision ≠ 0 := by omega
      have hpm1 : fs.precision ≠ -1 := by omega
      have hcast : (fs.precision % (18446744073709551616 : Int)).toNat = fs.precision.toNat := by
        rw [Int.emod_eq_of_lt (by omega) (by omega)]
      have hmin : min null_string_string.length (fs.precision.toNat) = 6 := by
        rw [hlen6]; omega
      cases hl : fs.left_justify with
      | false =>
        simp [write_string, hp0, hpm1, strnlen_safe, pad_output,
          write_forwards_buffer, hl, hmin, hlen6, justify_spec]
        rw [hcast]
        have hm2 : (6 : Nat) ⊓ fs.precision.toNat = 6 := by omega
        rw [hm2]
        have hpad : (if 6 < fs.width ∨ fs.precision.toNat < fs.width
            then fs.width - 6 else 0) = fs.width - 6 := by
          split_ifs <;> omega
        rw [hpad, ← hlen6, List.take_length]
      | true =>
        simp [write_string, hp0, hpm1, strnlen_safe, pad_output,
          write_forwards_buffer, hl, hmin, hlen6, justify_spec]
        rw [hcast]
        have hm2 : (6 : Nat) ⊓ fs.precision.toNat = 6 := by omega
        rw [hm2]
        have hpad : (if 6 < fs.width ∨ fs.precision.toNat < fs.width
            then fs.width - 6 else 0) = fs.width - 6 := by
          split_ifs <;> omega
        rw [hpad, ← hlen6, List.take_length]
  · intro h0
    cases hl : fs.left_justify with
    | false =>
      simp only [write_string, h0, strnlen_safe, pad_output, write_forwards_buffer, hl]
      norm_num
      omega
    | true =>
      simp only [write_string, h0, strnlen_safe, pad_output, write_forwards_buffer, hl]
      norm_num
      omega
  · intro h1 h5
    have hp0 : fs.precision ≠ 0 := by omega
    have hpm1 : fs.precision ≠ -1 := by omega
    have hcast : (fs.precision % (18446744073709551616 : Int)).toNat = fs.precision.toNat := by
      rw [Int.emod_eq_of_lt (by omega) (by omega)]
    cases hl : fs.left_justify with
    | false =>
      simp [write_string, hp0, hpm1, strnlen_safe, pad_output,
        write_forwards_buffer, hl, hlen6, justify_spec]
      rw [hcast]
      have hm2 : (6 : Nat) ⊓ fs.precision.toNat = fs.precision.toNat := by omega
      rw [hm2]
      have hpad : (if 6 < fs.width ∨ fs.precision.toNat < fs.width
          then fs.width - fs.precision.toNat else 0) = fs.width - fs.precision.toNat := by
        split_ifs <;> omega
      rw [hpad]
    | true =>
      simp [write_string, hp0, hpm1, strnlen_safe, pad_output,
        write_forwards_buffer, hl, hlen6, justify_spec]
      rw [hcast]
      have hm2 : (6 : Nat) ⊓ fs.precision.toNat = fs.precision.toNat := by omega
      rw [hm2]
      have hpad : (if 6 < fs.width ∨ fs.precision.toNat < fs.width
          then fs.width - fs.precision.toNat else 0) = fs.width - fs.precision.toNat := by
        split_ifs <;> omega
      rw [hpad]

/-- C7 witness: unspecified precision renders the full literal, followed
by the padding to width 8 since the directive is left justified. -/
theorem claim_C7_null_string_witness :
    write_string none
        {format_specifier_init with precision := -1, width := 8, left_justify := true} =
      null_string_string ++ List.replicate 2 ' ' :=
  (claim_C7_null_string
    {format_specifier_init with precision := -1, width := 8, left_justify := true}
    (by decide)).1 (Or.inl rfl)

end PrintfSpec
